import Mathlib

/-!
Formal model of the MobileCoin consensus-node enclave API
(`consensus/enclave/api/src/lib.rs`).

The repository file under verification declares the `ConsensusEnclave`
trait together with the data types `LocallyEncryptedTx`,
`WellFormedEncryptedTx`, `WellFormedTxContext`, `TxContext` and
`SealedBlockSigningKey`.  The concrete enclave implementation lives in a
crate that is not part of the sources, so the behaviour of each trait
method is modelled from the specification (attestation state machine,
secure-channel sessions, two-phase transaction admission, block
formation), while the data types and method signatures follow the source
file directly.  Cryptographic primitives (hashing, sealing, channel
encryption, signatures) are external collaborators of the crate and are
modelled as transparent, deterministic operations.
-/

namespace ConsensusEnclaveApi

/-- Key image of a spent output (`transaction::ring_signature::KeyImage`,
an external crate type; modelled as an opaque scalar). -/
structure KeyImage where
  val : Nat
deriving DecidableEq, Repr

/-- Transaction hash (`transaction::tx::TxHash`, external crate type). -/
abbrev TxHash := Nat

/-- Membership proof for a transaction output
(`transaction::tx::TxOutMembershipProof`, external crate type); only the
referenced index data is relevant here. -/
structure TxOutMembershipProof where
  index : Nat
  highest_index : Nat
deriving DecidableEq, Repr

/-- Modelled from the spec: a transaction input of the external `Tx` type,
carrying its membership proofs. -/
structure TxIn where
  proofs : List TxOutMembershipProof
deriving DecidableEq, Repr

/-- Modelled from the spec: the body of the external `Tx` type (its
`TxPrefix` in the transaction crate), carrying the inputs and the fee
read by `WellFormedTxContext::from`. -/
structure TxBody where
  inputs : List TxIn
  fee : Nat
deriving DecidableEq, Repr

/-- Modelled from the spec: the external `transaction::tx::Tx` type, with
exactly the attributes the enclave API reads (`tx.prefix.fee`,
`tx.tombstone_block`, `tx.key_images()`,
`tx.get_membership_proof_highest_indices()`). -/
structure Tx where
  body : TxBody
  tombstone_block : Nat
  key_images : List KeyImage
deriving DecidableEq, Repr

/-- A deterministic encoding of a list of naturals, used by the modelled
transaction hash. -/
def hashList (l : List Nat) : Nat :=
  l.foldr Nat.pair 0

/-- Encoding of a membership proof, used by the modelled hash. -/
def TxOutMembershipProof.enc (p : TxOutMembershipProof) : Nat :=
  Nat.pair p.index p.highest_index

/-- Encoding of a transaction input, used by the modelled hash. -/
def TxIn.enc (i : TxIn) : Nat :=
  hashList (i.proofs.map TxOutMembershipProof.enc)

/-- Modelled from the spec: the external `Tx::tx_hash` digest.  Any
deterministic function of the whole transaction is a faithful model; the
claims only use that it is computed from the original transaction. -/
def Tx.tx_hash (tx : Tx) : TxHash :=
  Nat.pair (hashList (TxBody.inputs tx.body |>.map TxIn.enc))
    (Nat.pair (TxBody.fee tx.body)
      (Nat.pair tx.tombstone_block (hashList (tx.key_images.map KeyImage.val))))

/-- The maximum index referenced by one input's membership proofs. -/
def TxIn.highest_index (i : TxIn) : Nat :=
  (i.proofs.map TxOutMembershipProof.highest_index).foldr max 0

/-- Modelled from the spec: the external
`Tx::get_membership_proof_highest_indices`, returning for each input the
maximum index referenced by that input's membership proofs. -/
def Tx.get_membership_proof_highest_indices (tx : Tx) : List Nat :=
  TxBody.inputs tx.body |>.map TxIn.highest_index

/-- A `Tx` encrypted for the local enclave (source type wraps opaque
ciphertext bytes; the local encryption is an out-of-scope primitive, so
the ciphertext is modelled as the transaction it encrypts). -/
structure LocallyEncryptedTx where
  tx : Tx
deriving DecidableEq, Repr

/-- A well-formed `Tx` encrypted for the current enclave (source type
wraps opaque ciphertext bytes; modelled as the transaction). -/
structure WellFormedEncryptedTx where
  tx : Tx
deriving DecidableEq, Repr

/-- Tx data exposed to untrusted code for well-formed txs; fields follow
the source struct. -/
structure WellFormedTxContext where
  tx_hash : TxHash
  fee : Nat
  tombstone_block : Nat
  key_images : List KeyImage
  highest_indices : List Nat
deriving DecidableEq, Repr

/-- The source impl `From<&Tx> for WellFormedTxContext`. -/
def WellFormedTxContext.fromTx (tx : Tx) : WellFormedTxContext :=
  { tx_hash := tx.tx_hash
    fee := TxBody.fee tx.body
    tombstone_block := tx.tombstone_block
    key_images := tx.key_images
    highest_indices := tx.get_membership_proof_highest_indices }

/-- Intermediate data for the two-step well-formedness test, returned by
the propose calls; fields follow the source struct. -/
structure TxContext where
  locally_encrypted_tx : LocallyEncryptedTx
  tx_hash : TxHash
  highest_indices : List Nat
  key_images : List KeyImage
deriving DecidableEq, Repr

/-- Modelled from the spec: phase-1 extraction of a `TxContext` from one
decrypted transaction (re-encrypt locally, expose hash, highest
membership-proof indices and key images). -/
def makeTxContext (tx : Tx) : TxContext :=
  { locally_encrypted_tx := ⟨tx⟩
    tx_hash := tx.tx_hash
    highest_indices := tx.get_membership_proof_highest_indices
    key_images := tx.key_images }

/-- Modelled from the spec: the reasons a `ValidationError` can carry
(error taxonomy of the design; the crate's `error` module is not among
the sources). -/
inductive ValidationErrKind where
  | malformedCiphertext
  | proofMismatch
  | expiredTombstone
  | structuralViolation
  | duplicateKeyImage
deriving DecidableEq, Repr

/-- Modelled from the spec: the enclave error taxonomy (the crate's
`error` module is not among the sources). -/
inductive Error where
  | attestation
  | session
  | validation (kind : ValidationErrKind)
  | sealing
  | serialization
deriving DecidableEq, Repr

/-- Modelled from the spec: an enclave report bound to a target quoting
enclave and carrying the one-time nonce (`attest::Report` and
`attest::QuoteNonce` are external types). -/
structure Report where
  target_info : Nat
  nonce : Nat
deriving DecidableEq, Repr

/-- Modelled from the spec: a hardware quote embedding the quoted report
(`attest::Quote`, external type). -/
structure Quote where
  report : Report
deriving DecidableEq, Repr

/-- Modelled from the spec: the quoting enclave's own report, abstracted
to whether it is self-consistent. -/
structure QeReport where
  consistent : Bool
deriving DecidableEq, Repr

/-- Modelled from the spec: an IAS verification report, embedding the
quote it attests, the IAS nonce, and whether its signature chain is
trusted (`attest::VerificationReport`, external type). -/
structure VerificationReport where
  quote : Quote
  ias_nonce : Nat
  trusted_sig : Bool
deriving DecidableEq, Repr

/-- Modelled from the spec: the in-flight attestation handshake data
(states ReportIssued and QuoteVerified of the attestation state
machine); absence of a value is the Idle state. -/
inductive AttestPending where
  | reportIssued (r : Report) (n : Nat)
  | quoteVerified (r : Report) (n : Nat) (q : Quote) (ias : Nat)
deriving DecidableEq, Repr

/-- Sealed block-signing key blob (source: an opaque byte vector; the
sealing primitive is out of scope, so the blob is modelled as the sealed
payload tagged with the sealing enclave's measurement). -/
structure SealedBlockSigningKey where
  sealed_key : Nat
  sealed_measurement : Nat
deriving DecidableEq, Repr

/-- Modelled from the spec: the enclave's long-lived key material
(block-signing key and channel-encryption key). -/
structure EnclaveKeys where
  signing_key : Nat
  channel_key : Nat
deriving DecidableEq, Repr

/-- Redacted on-chain representation of a transaction
(`transaction::RedactedTx`, external type; modelled keeping the digest
and the key images, which is what block formation inspects). -/
structure RedactedTx where
  tx_hash : TxHash
  key_images : List KeyImage
deriving DecidableEq, Repr

/-- Modelled from the spec: a block digest, computed deterministically
from the parent digest and the ordered redacted transactions.  A free
constructor is a perfect (collision-free) deterministic digest. -/
inductive Digest where
  | genesis
  | node (parent : Digest) (txs : List RedactedTx)
deriving DecidableEq, Repr

/-- Block header (`transaction::Block`, external type; modelled with the
parent linkage and digest the claims are about). -/
structure Block where
  index : Nat
  parent_id : Digest
  digest : Digest
deriving DecidableEq, Repr

/-- Block-signing public key (`keys::Ed25519Public`, external type). -/
structure Ed25519Public where
  val : Nat
deriving DecidableEq, Repr

/-- Channel public key (`keys::X25519Public`, external type). -/
structure X25519Public where
  val : Nat
deriving DecidableEq, Repr

/-- Signature over a block digest (`transaction::BlockSignature`,
external type; the signature scheme is out of scope, so a signature is
modelled as the signing key paired with the signed digest). -/
structure BlockSignature where
  signer : Nat
  digest : Digest
deriving DecidableEq, Repr

/-- Modelled signature verification: the signature must have been
produced over the given digest by the key behind the public key. -/
def verifyBlockSig (pk : Ed25519Public) (sig : BlockSignature) (d : Digest) : Bool :=
  sig.signer == pk.val && sig.digest == d

/-- Modelled from the spec: an authenticated-channel message
(`attest_enclave_api::EnclaveMessage`, external type): channel
identifier, sequence number, and — since the transport encryption is out
of scope — the transaction payload carried in the ciphertext, plus the
authenticated associated data. -/
structure EnclaveMessage where
  channel_id : Nat
  seq : Nat
  txs : List Tx
  aad : List Nat
deriving DecidableEq, Repr

/-- Modelled from the spec: the whole mutable enclave state behind the
`ConsensusEnclave` trait: key material, attestation state machine
(pending handshake + cached verification report), and the two session
tables mapping session identifiers to the next expected sequence
number.  `measurement` is the enclave's code measurement used by
sealing; the counters supply fresh nonces and session identifiers. -/
structure EnclaveState where
  keys : EnclaveKeys
  measurement : Nat
  nonce_ctr : Nat
  session_ctr : Nat
  pending : Option AttestPending
  cached_report : Option VerificationReport
  client_sessions : List (Nat × Nat)
  peer_sessions : List (Nat × Nat)
deriving DecidableEq, Repr

/-- Look up a session's next expected sequence number. -/
def lookupSession (tbl : List (Nat × Nat)) (sid : Nat) : Option Nat :=
  (tbl.find? (fun p => p.1 == sid)).map Prod.snd

/-- Update a session's next expected sequence number. -/
def setSession (tbl : List (Nat × Nat)) (sid v : Nat) : List (Nat × Nat) :=
  tbl.map (fun p => if p.1 == sid then (p.1, v) else p)

/-- Remove a session from a table. -/
def removeSession (tbl : List (Nat × Nat)) (sid : Nat) : List (Nat × Nat) :=
  tbl.filter (fun p => p.1 != sid)

/-- Seal a signing key under a measurement. -/
def sealKey (measurement k : Nat) : SealedBlockSigningKey :=
  ⟨k, measurement⟩

/-- Modelled from the spec: unsealing succeeds only inside an enclave
with the measurement that sealed the blob, else a sealing error. -/
def unsealKey (measurement : Nat) (blob : SealedBlockSigningKey) :
    Except Error Nat :=
  if blob.sealed_measurement = measurement then .ok blob.sealed_key
  else .error .sealing

/-- Modelled from the spec: `enclave_init`.  With no sealed key, a fresh
signing/channel key pair is generated and the signing key is returned in
sealed form; with a sealed key, it is unsealed (failing with a sealing
error on a foreign measurement) and returned re-sealed. -/
def enclave_init (st : EnclaveState) (_self_peer_id _self_client_id : Nat)
    (sealed_key : Option SealedBlockSigningKey) :
    EnclaveState × Except Error SealedBlockSigningKey :=
  match sealed_key with
  | none =>
    let k := st.nonce_ctr
    ({ st with keys := ⟨k, k + 1⟩, nonce_ctr := st.nonce_ctr + 2 },
      .ok (sealKey st.measurement k))
  | some blob =>
    match unsealKey st.measurement blob with
    | .ok k => ({ st with keys := ⟨k, EnclaveKeys.channel_key st.keys⟩ },
        .ok (sealKey st.measurement k))
    | .error e => (st, .error e)

/-- Modelled from the spec: `get_identity` exposes the channel public
key. -/
def get_identity (st : EnclaveState) : Except Error X25519Public :=
  .ok ⟨EnclaveKeys.channel_key st.keys⟩

/-- Modelled from the spec: `get_signer` exposes the block-signing
public key. -/
def get_signer (st : EnclaveState) : Except Error Ed25519Public :=
  .ok ⟨EnclaveKeys.signing_key st.keys⟩

/-- Modelled from the spec: `new_ereport` generates a fresh one-time
nonce, issues a report bound to the target quoting enclave, and replaces
any pending handshake (last-writer-wins). -/
def new_ereport (st : EnclaveState) (qe_info : Nat) :
    EnclaveState × Except Error (Report × Nat) :=
  let n := st.nonce_ctr
  let r : Report := ⟨qe_info, n⟩
  ({ st with pending := some (.reportIssued r n), nonce_ctr := n + 1 },
    .ok (r, n))

/-- Modelled from the spec: `verify_quote` requires a pending issued
report, checks the quote embeds exactly that report and the quoting
enclave's report is self-consistent; on success advances the handshake
and returns a fresh IAS nonce, on mismatch fails with an attestation
error and drops the handshake. -/
def verify_quote (st : EnclaveState) (quote : Quote) (qe_report : QeReport) :
    EnclaveState × Except Error Nat :=
  match st.pending with
  | some (.reportIssued r n) =>
    if quote.report = r ∧ QeReport.consistent qe_report = true then
      let ias := st.nonce_ctr
      ({ st with
          pending := some (.quoteVerified r n quote ias)
          nonce_ctr := st.nonce_ctr + 1 }, .ok ias)
    else ({ st with pending := none }, .error .attestation)
  | _ => (st, .error .attestation)

/-- Modelled from the spec: `verify_ias_report` requires a pending
verified quote, checks the report's signature chain is trusted, its
embedded quote is the verified one and its nonce matches; on success
caches the report, on failure returns an attestation error and discards
the pending nonce, leaving any previously cached report in place. -/
def verify_ias_report (st : EnclaveState) (ias_report : VerificationReport) :
    EnclaveState × Except Error Unit :=
  match st.pending with
  | some (.quoteVerified _ _ q ias) =>
    if VerificationReport.trusted_sig ias_report = true ∧
        VerificationReport.quote ias_report = q ∧
        VerificationReport.ias_nonce ias_report = ias then
      ({ st with pending := none, cached_report := some ias_report }, .ok ())
    else ({ st with pending := none }, .error .attestation)
  | _ => (st, .error .attestation)

/-- Modelled from the spec: `get_ias_report` returns the cached
verification report, failing with an attestation error when none has
been cached yet. -/
def get_ias_report (st : EnclaveState) : Except Error VerificationReport :=
  match st.cached_report with
  | some r => .ok r
  | none => .error .attestation

/-- Modelled from the spec: `client_accept` establishes a fresh client
session with sequence counter zero and returns the responder's
authentication response together with the session identifier. -/
def client_accept (st : EnclaveState) (req : Nat) :
    EnclaveState × Except Error (Nat × Nat) :=
  let sid := st.session_ctr
  ({ st with
      client_sessions := (sid, 0) :: st.client_sessions
      session_ctr := sid + 1 }, .ok (req, sid))

/-- Modelled from the spec: `client_close` irrecoverably removes a
client session, failing with a session error on an unknown session. -/
def client_close (st : EnclaveState) (channel_id : Nat) :
    EnclaveState × Except Error Unit :=
  match lookupSession st.client_sessions channel_id with
  | some _ => ({ st with
      client_sessions := removeSession st.client_sessions channel_id }, .ok ())
  | none => (st, .error .session)

/-- Modelled from the spec: decrypting a client message checks the
session exists and the message carries the next expected sequence
number; on success the counter advances and the payload is returned, on
any failure the state is untouched. -/
def decryptClientMsg (st : EnclaveState) (msg : EnclaveMessage) :
    EnclaveState × Except Error (List Tx) :=
  match lookupSession st.client_sessions msg.channel_id with
  | some c =>
    if msg.seq = c then
      ({ st with client_sessions :=
          setSession st.client_sessions msg.channel_id (c + 1) },
        .ok msg.txs)
    else (st, .error .session)
  | none => (st, .error .session)

/-- Modelled from the spec: `client_discard_message` decrypts and drops
the payload (its successful result carries no data) while still
advancing the session's sequence counter. -/
def client_discard_message (st : EnclaveState) (msg : EnclaveMessage) :
    EnclaveState × Except Error Unit :=
  match decryptClientMsg st msg with
  | (st1, .ok _) => (st1, .ok ())
  | (_, .error e) => (st, .error e)

/-- Modelled from the spec: `peer_init` builds the initiator's first
authentication message for a peer. -/
def peer_init (st : EnclaveState) (peer_id : Nat) :
    EnclaveState × Except Error Nat :=
  (st, .ok peer_id)

/-- Modelled from the spec: `peer_accept` establishes a fresh peer
session as responder. -/
def peer_accept (st : EnclaveState) (req : Nat) :
    EnclaveState × Except Error (Nat × Nat) :=
  let sid := st.session_ctr
  ({ st with
      peer_sessions := (sid, 0) :: st.peer_sessions
      session_ctr := sid + 1 }, .ok (req, sid))

/-- Modelled from the spec: `peer_connect` finalizes the initiator's
peer session. -/
def peer_connect (st : EnclaveState) (_peer_id _res : Nat) :
    EnclaveState × Except Error Nat :=
  let sid := st.session_ctr
  ({ st with
      peer_sessions := (sid, 0) :: st.peer_sessions
      session_ctr := sid + 1 }, .ok sid)

/-- Modelled from the spec: `peer_close` irrecoverably removes a peer
session. -/
def peer_close (st : EnclaveState) (channel_id : Nat) :
    EnclaveState × Except Error Unit :=
  match lookupSession st.peer_sessions channel_id with
  | some _ => ({ st with
      peer_sessions := removeSession st.peer_sessions channel_id }, .ok ())
  | none => (st, .error .session)

/-- Modelled from the spec: decrypting a peer message, mirroring
`decryptClientMsg` on the peer session table. -/
def decryptPeerMsg (st : EnclaveState) (msg : EnclaveMessage) :
    EnclaveState × Except Error (List Tx) :=
  match lookupSession st.peer_sessions msg.channel_id with
  | some c =>
    if msg.seq = c then
      ({ st with peer_sessions :=
          setSession st.peer_sessions msg.channel_id (c + 1) },
        .ok msg.txs)
    else (st, .error .session)
  | none => (st, .error .session)

/-- Modelled from the spec: `client_tx_propose` decrypts a client
message carrying exactly one transaction and returns its `TxContext`;
a payload that is not a single transaction is a malformed call payload,
and then no state change is committed. -/
def client_tx_propose (st : EnclaveState) (msg : EnclaveMessage) :
    EnclaveState × Except Error TxContext :=
  match decryptClientMsg st msg with
  | (st1, .ok [tx]) => (st1, .ok (makeTxContext tx))
  | (_, .ok _) => (st, .error .serialization)
  | (_, .error e) => (st, .error e)

/-- Modelled from the spec: `peer_tx_propose` decrypts a peer message
carrying any number of transactions and returns one `TxContext` per
transaction, in order. -/
def peer_tx_propose (st : EnclaveState) (msg : EnclaveMessage) :
    EnclaveState × Except Error (List TxContext) :=
  match decryptPeerMsg st msg with
  | (st1, .ok txs) => (st1, .ok (txs.map makeTxContext))
  | (_, .error e) => (st, .error e)

/-- Modelled from the spec: `tx_is_well_formed` (phase 2).  Decrypts the
locally encrypted transaction and validates, in order: the tombstone
block is strictly greater than the given block index (else rejected as
expired); the supplied membership proofs are consistent with the
referenced indices of phase 1; and the transaction passes the external
structural validation routine `chk`, a capability the enclave holds. -/
def tx_is_well_formed (chk : Tx → Bool) (locally_encrypted_tx : LocallyEncryptedTx)
    (block_index : Nat) (proofs : List TxOutMembershipProof) :
    Except Error (WellFormedEncryptedTx × WellFormedTxContext) :=
  let tx := locally_encrypted_tx.tx
  if tx.tombstone_block ≤ block_index then
    .error (.validation .expiredTombstone)
  else if proofs.map TxOutMembershipProof.highest_index ≠
      tx.get_membership_proof_highest_indices then
    .error (.validation .proofMismatch)
  else if chk tx = false then
    .error (.validation .structuralViolation)
  else
    .ok (⟨tx⟩, WellFormedTxContext.fromTx tx)

/-- Modelled from the spec: `txs_for_peer` re-encrypts well-formed
transactions for a peer session with the caller's authenticated data,
failing with a session error on an unknown session. -/
def txs_for_peer (st : EnclaveState) (encrypted_txs : List WellFormedEncryptedTx)
    (aad : List Nat) (peer : Nat) : Except Error EnclaveMessage :=
  match lookupSession st.peer_sessions peer with
  | some c => .ok ⟨peer, c, encrypted_txs.map WellFormedEncryptedTx.tx, aad⟩
  | none => .error .session

/-- Modelled from the spec: redaction of a transaction into its compact
on-chain representation. -/
def redactTx (tx : Tx) : RedactedTx :=
  ⟨tx.tx_hash, tx.key_images⟩

/-- Modelled from the spec: `form_block`.  Decrypts each transaction,
rejects the whole batch when any key image occurs twice, redacts the
transactions in order, computes the new block's digest deterministically
from the parent's digest and the ordered redacted transactions, and
signs the digest with the enclave's signing key. -/
def form_block (st : EnclaveState) (parent_block : Block)
    (txs : List (WellFormedEncryptedTx × List TxOutMembershipProof)) :
    Except Error (Block × List RedactedTx × BlockSignature) :=
  let decrypted := txs.map (fun p => WellFormedEncryptedTx.tx p.1)
  let batch_key_images := (decrypted.map Tx.key_images).flatten
  if batch_key_images.Nodup then
    let redacted := decrypted.map redactTx
    let d := Digest.node parent_block.digest redacted
    .ok (⟨parent_block.index + 1, parent_block.digest, d⟩, redacted,
      ⟨EnclaveKeys.signing_key st.keys, d⟩)
  else
    .error (.validation .duplicateKeyImage)

/-- One call of the enclave interface, with its arguments: the nineteen
methods of the `ConsensusEnclave` trait. -/
inductive EnclaveOp where
  | enclaveInit (self_peer_id self_client_id : Nat)
      (sealed_key : Option SealedBlockSigningKey)
  | getIdentity
  | getSigner
  | newEreport (qe_info : Nat)
  | verifyQuote (quote : Quote) (qe_report : QeReport)
  | verifyIasReport (ias_report : VerificationReport)
  | getIasReport
  | clientAccept (req : Nat)
  | clientClose (channel_id : Nat)
  | clientDiscardMessage (msg : EnclaveMessage)
  | peerInit (peer_id : Nat)
  | peerAccept (req : Nat)
  | peerConnect (peer_id : Nat) (res : Nat)
  | peerClose (channel_id : Nat)
  | clientTxPropose (msg : EnclaveMessage)
  | peerTxPropose (msg : EnclaveMessage)
  | txIsWellFormed (locally_encrypted_tx : LocallyEncryptedTx)
      (block_index : Nat) (proofs : List TxOutMembershipProof)
  | txsForPeer (encrypted_txs : List WellFormedEncryptedTx) (aad : List Nat)
      (peer : Nat)
  | formBlock (parent_block : Block)
      (txs : List (WellFormedEncryptedTx × List TxOutMembershipProof))
deriving DecidableEq, Repr

/-- The successful result of one enclave call, one constructor per
method output type. -/
inductive OpOutput where
  | sealedKey (blob : SealedBlockSigningKey)
  | identity (pk : X25519Public)
  | signer (pk : Ed25519Public)
  | ereport (r : Report) (n : Nat)
  | iasNonce (n : Nat)
  | unit
  | iasReport (r : VerificationReport)
  | clientStarted (res sid : Nat)
  | peerRequest (req : Nat)
  | peerStarted (res sid : Nat)
  | peerSession (sid : Nat)
  | txContext (ctx : TxContext)
  | txContexts (ctxs : List TxContext)
  | wellFormed (tx : WellFormedEncryptedTx) (ctx : WellFormedTxContext)
  | peerMessage (msg : EnclaveMessage)
  | blockFormed (b : Block) (rtxs : List RedactedTx) (sig : BlockSignature)
deriving DecidableEq, Repr

/-- Dispatcher over the enclave call interface: runs one call against
the enclave state, threading the state and wrapping the result.  `chk`
is the external structural transaction-validation capability used by
`tx_is_well_formed`. -/
def runOp (chk : Tx → Bool) (st : EnclaveState) (op : EnclaveOp) :
    EnclaveState × Except Error OpOutput :=
  match op with
  | .enclaveInit p c sk =>
    let r := enclave_init st p c sk
    (r.1, r.2.map OpOutput.sealedKey)
  | .getIdentity => (st, (get_identity st).map OpOutput.identity)
  | .getSigner => (st, (get_signer st).map OpOutput.signer)
  | .newEreport q =>
    let r := new_ereport st q
    (r.1, r.2.map (fun p => OpOutput.ereport p.1 p.2))
  | .verifyQuote q qe =>
    let r := verify_quote st q qe
    (r.1, r.2.map OpOutput.iasNonce)
  | .verifyIasReport ir =>
    let r := verify_ias_report st ir
    (r.1, r.2.map (fun _ => OpOutput.unit))
  | .getIasReport => (st, (get_ias_report st).map OpOutput.iasReport)
  | .clientAccept req =>
    let r := client_accept st req
    (r.1, r.2.map (fun p => OpOutput.clientStarted p.1 p.2))
  | .clientClose cid =>
    let r := client_close st cid
    (r.1, r.2.map (fun _ => OpOutput.unit))
  | .clientDiscardMessage msg =>
    let r := client_discard_message st msg
    (r.1, r.2.map (fun _ => OpOutput.unit))
  | .peerInit pid =>
    let r := peer_init st pid
    (r.1, r.2.map OpOutput.peerRequest)
  | .peerAccept req =>
    let r := peer_accept st req
    (r.1, r.2.map (fun p => OpOutput.peerStarted p.1 p.2))
  | .peerConnect pid res =>
    let r := peer_connect st pid res
    (r.1, r.2.map OpOutput.peerSession)
  | .peerClose cid =>
    let r := peer_close st cid
    (r.1, r.2.map (fun _ => OpOutput.unit))
  | .clientTxPropose msg =>
    let r := client_tx_propose st msg
    (r.1, r.2.map OpOutput.txContext)
  | .peerTxPropose msg =>
    let r := peer_tx_propose st msg
    (r.1, r.2.map OpOutput.txContexts)
  | .txIsWellFormed letx bi proofs =>
    (st, (tx_is_well_formed chk letx bi proofs).map
      (fun p => OpOutput.wellFormed p.1 p.2))
  | .txsForPeer txs aad peer =>
    (st, (txs_for_peer st txs aad peer).map OpOutput.peerMessage)
  | .formBlock parent txs =>
    (st, (form_block st parent txs).map
      (fun p => OpOutput.blockFormed p.1 p.2.1 p.2.2))

/-- The nonces of in-flight attestation handshakes held by a state (the
model stores the handshake in one optional field, so this list never has
more than one element). -/
def pendingNonceList (s : EnclaveState) : List Nat :=
  match s.pending with
  | none => []
  | some (.reportIssued _ n) => [n]
  | some (.quoteVerified _ n _ _) => [n]

/-- A concrete enclave state used by the witness theorems: one client
session (identifier 1, next expected sequence 4) and one peer session
(identifier 2, next expected sequence 0). -/
def stW : EnclaveState :=
  { keys := ⟨5, 6⟩
    measurement := 3
    nonce_ctr := 10
    session_ctr := 7
    pending := none
    cached_report := none
    client_sessions := [(1, 4)]
    peer_sessions := [(2, 0)] }

/-- A concrete transaction used by the witness theorems. -/
def txA : Tx :=
  { body := { inputs := [⟨[⟨0, 4⟩, ⟨2, 9⟩]⟩], fee := 10 }
    tombstone_block := 8
    key_images := [⟨7⟩] }

/-- A second concrete transaction, sharing a key image with `txA`. -/
def txB : Tx :=
  { body := { inputs := [⟨[⟨1, 5⟩]⟩], fee := 11 }
    tombstone_block := 9
    key_images := [⟨7⟩] }

/-- A concrete parent block used by the witness theorems. -/
def parentW : Block := ⟨0, Digest.genesis, Digest.genesis⟩

/-- Replace the client-session table of a state (the shape of the state
produced by a successful client-message decryption). -/
def withClientSessions (st : EnclaveState) (tbl : List (Nat × Nat)) : EnclaveState :=
  { st with client_sessions := tbl }

/-- Replace the key material of a state (the shape of the state produced
by `enclave_init`'s unsealing path). -/
def withKeys (st : EnclaveState) (k : EnclaveKeys) : EnclaveState :=
  { st with keys := k }

/-- The batch used by the C2 witness: a single well-formed
transaction. -/
def goodBatchW : List (WellFormedEncryptedTx × List TxOutMembershipProof) :=
  [(⟨txA⟩, [])]

/-- The redacted transaction of the C2 witness batch. -/
def redW : RedactedTx := redactTx txA

/-- The digest of the block formed by the C2 witness. -/
def digestW : Digest := Digest.node Digest.genesis [redW]

/-- The block formed by the C2 witness. -/
def blockW : Block := ⟨1, Digest.genesis, digestW⟩

/-- The signature over the C2 witness block. -/
def sigW : BlockSignature := ⟨5, digestW⟩

/-- A concrete client message carrying one transaction, for the C4 and
C9 witnesses (session 1 of `stW`, expected sequence 4). -/
def msgCW : EnclaveMessage := ⟨1, 4, [txA], []⟩

/-- The enclave state after `stW` consumes `msgCW` (sequence counter of
session 1 advanced to 5). -/
def stW1 : EnclaveState :=
  { keys := ⟨5, 6⟩
    measurement := 3
    nonce_ctr := 10
    session_ctr := 7
    pending := none
    cached_report := none
    client_sessions := [(1, 5)]
    peer_sessions := [(2, 0)] }

/-- Attestation state after `new_ereport` in the C6 witness. -/
def attestS1 : EnclaveState :=
  { keys := ⟨5, 6⟩
    measurement := 3
    nonce_ctr := 11
    session_ctr := 7
    pending := some (.reportIssued ⟨3, 10⟩ 10)
    cached_report := none
    client_sessions := [(1, 4)]
    peer_sessions := [(2, 0)] }

/-- Attestation state after `verify_quote` in the C6 witness. -/
def attestS2 : EnclaveState :=
  { keys := ⟨5, 6⟩
    measurement := 3
    nonce_ctr := 12
    session_ctr := 7
    pending := some (.quoteVerified ⟨3, 10⟩ 10 ⟨⟨3, 10⟩⟩ 11)
    cached_report := none
    client_sessions := [(1, 4)]
    peer_sessions := [(2, 0)] }

/-- Attestation state after `verify_ias_report` in the C6 witness. -/
def attestS3 : EnclaveState :=
  { keys := ⟨5, 6⟩
    measurement := 3
    nonce_ctr := 12
    session_ctr := 7
    pending := none
    cached_report := some ⟨⟨⟨3, 10⟩⟩, 11, true⟩
    client_sessions := [(1, 4)]
    peer_sessions := [(2, 0)] }

/-- A flattened list of lists is not duplicate-free when two distinct
component lists share an element. -/
theorem not_nodup_flatten_of_shared {α : Type} [DecidableEq α] (L : List (List α))
    (i j : Nat) (hi : i < L.length) (hj : j < L.length) (hij : i ≠ j) (a : α)
    (hai : a ∈ L.get ⟨i, hi⟩) (haj : a ∈ L.get ⟨j, hj⟩) : ¬ L.flatten.Nodup := by
  intro h
  rcases List.nodup_flatten.mp h with ⟨-, hpair⟩
  rw [List.pairwise_iff_get] at hpair
  rcases Nat.lt_or_ge i j with hlt | hge
  · exact hpair ⟨i, hi⟩ ⟨j, hj⟩ hlt hai haj
  · have hlt : j < i := Nat.lt_of_le_of_ne hge (Ne.symm hij)
    exact hpair ⟨j, hj⟩ ⟨i, hi⟩ hlt haj hai

/-- C1: a transaction batch in which two entries share an identical key
image makes `form_block` fail with the duplicate-key-image validation
error, producing no block, no redacted-transaction list and no
signature. -/
theorem form_block_rejects_duplicate_key_images
    (st : EnclaveState) (parent_block : Block)
    (txs : List (WellFormedEncryptedTx × List TxOutMembershipProof))
    (i j : Nat) (hi : i < txs.length) (hj : j < txs.length) (hij : i ≠ j)
    (k : KeyImage)
    (hki : k ∈ Tx.key_images (WellFormedEncryptedTx.tx txs[i].1))
    (hkj : k ∈ Tx.key_images (WellFormedEncryptedTx.tx txs[j].1)) :
    form_block st parent_block txs = .error (.validation .duplicateKeyImage) := by
  have hL : ¬ ((txs.map (fun p => WellFormedEncryptedTx.tx p.1)).map
      Tx.key_images).flatten.Nodup := by
    have hi2 : i < ((txs.map (fun p => WellFormedEncryptedTx.tx p.1)).map
        Tx.key_images).length := by simpa using hi
    have hj2 : j < ((txs.map (fun p => WellFormedEncryptedTx.tx p.1)).map
        Tx.key_images).length := by simpa using hj
    refine not_nodup_flatten_of_shared _ i j hi2 hj2 hij k ?_ ?_
    · simpa [List.get_eq_getElem] using hki
    · simpa [List.get_eq_getElem] using hkj
  simp only [form_block]
  rw [if_neg hL]

/-- Witness for C1: a concrete two-transaction batch sharing key image 7
is rejected. -/
theorem form_block_rejects_duplicate_key_images_witness :
    (0 : Nat) ≠ 1 ∧
    form_block stW parentW [(⟨txA⟩, []), (⟨txB⟩, [])]
      = .error (.validation .duplicateKeyImage) :=
  ⟨by decide,
    form_block_rejects_duplicate_key_images stW parentW
      [(⟨txA⟩, []), (⟨txB⟩, [])] 0 1 (by decide) (by decide) (by decide) ⟨7⟩
      (by decide) (by decide)⟩

/-- C2: a successful `form_block` yields a signature that verifies over
the block's digest under the public key returned by `get_signer`, and
the block and redacted-transaction list are deterministic functions of
the parent block and the ordered transaction list (two calls on
identical inputs, even from different enclave states, produce identical
blocks). -/
theorem form_block_signed_and_deterministic
    (st st2 : EnclaveState) (parent_block : Block)
    (txs : List (WellFormedEncryptedTx × List TxOutMembershipProof))
    (b b2 : Block) (r r2 : List RedactedTx) (sig sig2 : BlockSignature)
    (h : form_block st parent_block txs = .ok (b, r, sig))
    (h2 : form_block st2 parent_block txs = .ok (b2, r2, sig2)) :
    (∃ pk, get_signer st = .ok pk ∧
      verifyBlockSig pk sig (Block.digest b) = true) ∧ b = b2 ∧ r = r2 := by
  simp only [form_block] at h h2
  by_cases hn : ((txs.map (fun p => WellFormedEncryptedTx.tx p.1)).map
      Tx.key_images).flatten.Nodup
  · rw [if_pos hn] at h h2
    simp only [Except.ok.injEq, Prod.mk.injEq] at h h2
    obtain ⟨hb, hr, hsig⟩ := h
    obtain ⟨hb2, hr2, hsig2⟩ := h2
    subst hb hr hsig hb2 hr2 hsig2
    refine ⟨⟨⟨EnclaveKeys.signing_key (EnclaveState.keys st)⟩, rfl, ?_⟩, rfl, rfl⟩
    simp [verifyBlockSig]
  · rw [if_neg hn] at h
    cases h

/-- Witness for C2 at a concrete single-transaction batch. -/
theorem form_block_signed_and_deterministic_witness :
    form_block stW parentW goodBatchW = .ok (blockW, [redW], sigW) ∧
    ((∃ pk, get_signer stW = .ok pk ∧
      verifyBlockSig pk sigW (Block.digest blockW) = true) ∧
      blockW = blockW ∧ [redW] = [redW]) :=
  ⟨rfl,
    form_block_signed_and_deterministic stW stW parentW goodBatchW
      blockW blockW [redW] [redW] sigW sigW rfl rfl⟩

/-- C3: `tx_is_well_formed` fails with the expired-tombstone validation
error whenever the transaction's tombstone block is at most the given
block index, producing no `WellFormedEncryptedTx` and no
`WellFormedTxContext`; it passes that check exactly when the tombstone
block is strictly greater than the block index. -/
theorem tx_is_well_formed_expiry (chk : Tx → Bool)
    (locally_encrypted_tx : LocallyEncryptedTx) (block_index : Nat)
    (proofs : List TxOutMembershipProof) :
    (Tx.tombstone_block (LocallyEncryptedTx.tx locally_encrypted_tx) ≤ block_index →
      tx_is_well_formed chk locally_encrypted_tx block_index proofs
        = .error (.validation .expiredTombstone)) ∧
    (∀ out, tx_is_well_formed chk locally_encrypted_tx block_index proofs = .ok out →
      block_index < Tx.tombstone_block (LocallyEncryptedTx.tx locally_encrypted_tx)) := by
  constructor
  · intro hle
    simp only [tx_is_well_formed]
    rw [if_pos hle]
  · intro out hok
    by_cases hle :
      Tx.tombstone_block (LocallyEncryptedTx.tx locally_encrypted_tx) ≤ block_index
    · simp only [tx_is_well_formed] at hok
      rw [if_pos hle] at hok
      cases hok
    · omega

/-- Witness for C3: a transaction with tombstone block 8 is rejected as
expired at block index 8. -/
theorem tx_is_well_formed_expiry_witness :
    Tx.tombstone_block (LocallyEncryptedTx.tx ⟨txA⟩) ≤ 8 ∧
    tx_is_well_formed (fun _ => true) ⟨txA⟩ 8 []
      = .error (.validation .expiredTombstone) :=
  ⟨by decide, (tx_is_well_formed_expiry (fun _ => true) ⟨txA⟩ 8 []).1 (by decide)⟩

/-- A successful client-message decryption returns exactly the message's
payload. -/
theorem decryptClientMsg_ok_payload (st : EnclaveState) (msg : EnclaveMessage)
    (st1 : EnclaveState) (l : List Tx)
    (h : decryptClientMsg st msg = (st1, .ok l)) : l = EnclaveMessage.txs msg := by
  unfold decryptClientMsg at h
  split at h
  · split at h
    · injection h with h1 h2
      injection h2 with h2
      exact h2.symm
    · injection h with h1 h2
      cases h2
  · injection h with h1 h2
    cases h2

/-- A successful peer-message decryption returns exactly the message's
payload. -/
theorem decryptPeerMsg_ok_payload (st : EnclaveState) (msg : EnclaveMessage)
    (st1 : EnclaveState) (l : List Tx)
    (h : decryptPeerMsg st msg = (st1, .ok l)) : l = EnclaveMessage.txs msg := by
  unfold decryptPeerMsg at h
  split at h
  · split at h
    · injection h with h1 h2
      injection h2 with h2
      exact h2.symm
    · injection h with h1 h2
      cases h2
  · injection h with h1 h2
    cases h2

/-- C4: a `TxContext` returned by `client_tx_propose` or
`peer_tx_propose` carries the hash of the original submitted
transaction, and its `highest_indices` are, for each input of that
transaction, the maximum index referenced by that input's membership
proofs. -/
theorem tx_propose_context_faithful (st : EnclaveState) (msg : EnclaveMessage) :
    (∀ st1 ctx tx, EnclaveMessage.txs msg = [tx] →
      client_tx_propose st msg = (st1, .ok ctx) →
        TxContext.tx_hash ctx = Tx.tx_hash tx ∧
        TxContext.highest_indices ctx
          = (TxBody.inputs (Tx.body tx)).map TxIn.highest_index) ∧
    (∀ st1 ctxs, peer_tx_propose st msg = (st1, .ok ctxs) →
      ctxs.map TxContext.tx_hash = (EnclaveMessage.txs msg).map Tx.tx_hash ∧
      ctxs.map TxContext.highest_indices
        = (EnclaveMessage.txs msg).map
          (fun t => (TxBody.inputs (Tx.body t)).map TxIn.highest_index)) := by
  constructor
  · intro st1 ctx tx htx hcall
    unfold client_tx_propose at hcall
    cases hd : decryptClientMsg st msg with
    | mk st' r =>
      rw [hd] at hcall
      cases r with
      | error e =>
        have hsnd : (Except.error e : Except Error TxContext) = .ok ctx :=
          congrArg Prod.snd hcall
        cases hsnd
      | ok l =>
        have hpay : l = EnclaveMessage.txs msg :=
          decryptClientMsg_ok_payload _ _ _ _ hd
        rw [htx] at hpay
        subst hpay
        have hsnd : (Except.ok (makeTxContext tx) : Except Error TxContext)
            = .ok ctx := congrArg Prod.snd hcall
        injection hsnd with hsnd
        subst hsnd
        exact ⟨rfl, rfl⟩
  · intro st1 ctxs hcall
    unfold peer_tx_propose at hcall
    cases hd : decryptPeerMsg st msg with
    | mk st' r =>
      rw [hd] at hcall
      cases r with
      | error e =>
        have hsnd : (Except.error e : Except Error (List TxContext)) = .ok ctxs :=
          congrArg Prod.snd hcall
        cases hsnd
      | ok l =>
        have hpay : l = EnclaveMessage.txs msg :=
          decryptPeerMsg_ok_payload _ _ _ _ hd
        subst hpay
        have hsnd : (Except.ok ((EnclaveMessage.txs msg).map makeTxContext) :
            Except Error (List TxContext)) = .ok ctxs := congrArg Prod.snd hcall
        injection hsnd with hsnd
        subst hsnd
        constructor
        · simp [makeTxContext, List.map_map, Function.comp]
        · simp [makeTxContext, List.map_map, Function.comp,
            Tx.get_membership_proof_highest_indices]

/-- Witness for C4: proposing `txA` through client session 1 returns its
hash and per-input maximum proof indices. -/
theorem tx_propose_context_faithful_witness :
    EnclaveMessage.txs msgCW = [txA] ∧
    client_tx_propose stW msgCW = (stW1, .ok (makeTxContext txA)) ∧
    (TxContext.tx_hash (makeTxContext txA) = Tx.tx_hash txA ∧
      TxContext.highest_indices (makeTxContext txA)
        = (TxBody.inputs (Tx.body txA)).map TxIn.highest_index) :=
  ⟨rfl, rfl,
    (tx_propose_context_faithful stW msgCW).1 stW1 (makeTxContext txA) txA rfl rfl⟩

/-- Mapping a function over an `Except` value cannot turn success into
an error. -/
theorem except_map_error {ε α β : Type} (g : α → β) (x : Except ε α) (e : ε)
    (h : x.map g = .error e) : x = .error e := by
  cases x with
  | error a => simpa [Except.map] using h
  | ok v => simp [Except.map] at h

/-- A failing `enclave_init` leaves the state untouched. -/
theorem enclave_init_error_state (st st1 : EnclaveState) (p c : Nat)
    (sk : Option SealedBlockSigningKey) (e : Error)
    (h : enclave_init st p c sk = (st1, .error e)) : st1 = st := by
  unfold enclave_init at h
  split at h
  · injection h with h1 h2
    cases h2
  · split at h
    · injection h with h1 h2
      cases h2
    · injection h with h1 h2
      exact h1.symm

/-- A failing `verify_quote` leaves everything but the pending
attestation handshake untouched. -/
theorem verify_quote_error_state (st st1 : EnclaveState) (q : Quote)
    (qe : QeReport) (e : Error) (h : verify_quote st q qe = (st1, .error e)) :
    st1 = st ∨ st1 = { st with pending := none } := by
  unfold verify_quote at h
  split at h
  · split at h
    · injection h with h1 h2
      cases h2
    · injection h with h1 h2
      right
      exact h1.symm
  · injection h with h1 h2
    left
    exact h1.symm

/-- A failing `verify_ias_report` leaves everything but the pending
attestation handshake untouched; in particular the cached report is
unchanged. -/
theorem verify_ias_report_error_state (st st1 : EnclaveState)
    (vr : VerificationReport) (e : Error)
    (h : verify_ias_report st vr = (st1, .error e)) :
    st1 = st ∨ st1 = { st with pending := none } := by
  unfold verify_ias_report at h
  split at h
  · split at h
    · injection h with h1 h2
      cases h2
    · injection h with h1 h2
      right
      exact h1.symm
  · injection h with h1 h2
    left
    exact h1.symm

/-- A failing `client_close` leaves the state untouched. -/
theorem client_close_error_state (st st1 : EnclaveState) (cid : Nat) (e : Error)
    (h : client_close st cid = (st1, .error e)) : st1 = st := by
  unfold client_close at h
  split at h
  · injection h with h1 h2
    cases h2
  · injection h with h1 h2
    exact h1.symm

/-- A failing `peer_close` leaves the state untouched. -/
theorem peer_close_error_state (st st1 : EnclaveState) (cid : Nat) (e : Error)
    (h : peer_close st cid = (st1, .error e)) : st1 = st := by
  unfold peer_close at h
  split at h
  · injection h with h1 h2
    cases h2
  · injection h with h1 h2
    exact h1.symm

/-- A failing `client_discard_message` leaves the state untouched. -/
theorem client_discard_message_error_state (st st1 : EnclaveState)
    (msg : EnclaveMessage) (e : Error)
    (h : client_discard_message st msg = (st1, .error e)) : st1 = st := by
  unfold client_discard_message at h
  split at h
  · injection h with h1 h2
    cases h2
  · injection h with h1 h2
    exact h1.symm

/-- A failing `client_tx_propose` leaves the state untouched. -/
theorem client_tx_propose_error_state (st st1 : EnclaveState)
    (msg : EnclaveMessage) (e : Error)
    (h : client_tx_propose st msg = (st1, .error e)) : st1 = st := by
  unfold client_tx_propose at h
  split at h
  · injection h with h1 h2
    cases h2
  · injection h with h1 h2
    exact h1.symm
  · injection h with h1 h2
    exact h1.symm

/-- A failing `peer_tx_propose` leaves the state untouched. -/
theorem peer_tx_propose_error_state (st st1 : EnclaveState)
    (msg : EnclaveMessage) (e : Error)
    (h : peer_tx_propose st msg = (st1, .error e)) : st1 = st := by
  unfold peer_tx_propose at h
  split at h
  · injection h with h1 h2
    cases h2
  · injection h with h1 h2
    exact h1.symm

/-- C5: a call of the enclave interface that returns an error leaves all
persistent enclave state unchanged — the cached attestation report, both
session tables, the key material, the code measurement and the freshness
counters are exactly as before the failing call (only a failing
attestation-verification step's own pending handshake data is
discarded). -/
theorem failing_call_leaves_state_unchanged (chk : Tx → Bool)
    (st : EnclaveState) (op : EnclaveOp) (st1 : EnclaveState) (e : Error)
    (h : runOp chk st op = (st1, .error e)) :
    EnclaveState.cached_report st1 = EnclaveState.cached_report st ∧
    EnclaveState.client_sessions st1 = EnclaveState.client_sessions st ∧
    EnclaveState.peer_sessions st1 = EnclaveState.peer_sessions st ∧
    EnclaveState.keys st1 = EnclaveState.keys st ∧
    EnclaveState.measurement st1 = EnclaveState.measurement st ∧
    EnclaveState.session_ctr st1 = EnclaveState.session_ctr st ∧
    EnclaveState.nonce_ctr st1 = EnclaveState.nonce_ctr st := by
  have key : st1 = st ∨ st1 = { st with pending := none } := by
    cases op with
    | enclaveInit p c sk =>
      simp only [runOp] at h
      injection h with h1 h2
      have h3 := except_map_error _ _ _ h2
      have hfull : enclave_init st p c sk = (st1, .error e) := by
        rw [← h1, ← h3]
      exact Or.inl (enclave_init_error_state _ _ _ _ _ _ hfull)
    | getIdentity =>
      simp only [runOp] at h
      injection h with h1 h2
      cases except_map_error _ _ _ h2
    | getSigner =>
      simp only [runOp] at h
      injection h with h1 h2
      cases except_map_error _ _ _ h2
    | newEreport q =>
      simp only [runOp, new_ereport] at h
      injection h with h1 h2
      cases except_map_error _ _ _ h2
    | verifyQuote q qe =>
      simp only [runOp] at h
      injection h with h1 h2
      have h3 := except_map_error _ _ _ h2
      have hfull : verify_quote st q qe = (st1, .error e) := by
        rw [← h1, ← h3]
      exact verify_quote_error_state _ _ _ _ _ hfull
    | verifyIasReport vr =>
      simp only [runOp] at h
      injection h with h1 h2
      have h3 := except_map_error _ _ _ h2
      have hfull : verify_ias_report st vr = (st1, .error e) := by
        rw [← h1, ← h3]
      exact verify_ias_report_error_state _ _ _ _ hfull
    | getIasReport =>
      simp only [runOp] at h
      injection h with h1 h2
      exact Or.inl h1.symm
    | clientAccept req =>
      simp only [runOp, client_accept] at h
      injection h with h1 h2
      cases except_map_error _ _ _ h2
    | clientClose cid =>
      simp only [runOp] at h
      injection h with h1 h2
      have h3 := except_map_error _ _ _ h2
      have hfull : client_close st cid = (st1, .error e) := by
        rw [← h1, ← h3]
      exact Or.inl (client_close_error_state _ _ _ _ hfull)
    | clientDiscardMessage msg =>
      simp only [runOp] at h
      injection h with h1 h2
      have h3 := except_map_error _ _ _ h2
      have hfull : client_discard_message st msg = (st1, .error e) := by
        rw [← h1, ← h3]
      exact Or.inl (client_discard_message_error_state _ _ _ _ hfull)
    | peerInit pid =>
      simp only [runOp, peer_init] at h
      injection h with h1 h2
      cases except_map_error _ _ _ h2
    | peerAccept req =>
      simp only [runOp, peer_accept] at h
      injection h with h1 h2
      cases except_map_error _ _ _ h2
    | peerConnect pid res =>
      simp only [runOp, peer_connect] at h
      injection h with h1 h2
      cases except_map_error _ _ _ h2
    | peerClose cid =>
      simp only [runOp] at h
      injection h with h1 h2
      have h3 := except_map_error _ _ _ h2
      have hfull : peer_close st cid = (st1, .error e) := by
        rw [← h1, ← h3]
      exact Or.inl (peer_close_error_state _ _ _ _ hfull)
    | clientTxPropose msg =>
      simp only [runOp] at h
      injection h with h1 h2
      have h3 := except_map_error _ _ _ h2
      have hfull : client_tx_propose st msg = (st1, .error e) := by
        rw [← h1, ← h3]
      exact Or.inl (client_tx_propose_error_state _ _ _ _ hfull)
    | peerTxPropose msg =>
      simp only [runOp] at h
      injection h with h1 h2
      have h3 := except_map_error _ _ _ h2
      have hfull : peer_tx_propose st msg = (st1, .error e) := by
        rw [← h1, ← h3]
      exact Or.inl (peer_tx_propose_error_state _ _ _ _ hfull)
    | txIsWellFormed letx bi proofs =>
      simp only [runOp] at h
      injection h with h1 h2
      exact Or.inl h1.symm
    | txsForPeer txs aad peer =>
      simp only [runOp] at h
      injection h with h1 h2
      exact Or.inl h1.symm
    | formBlock parent txs =>
      simp only [runOp] at h
      injection h with h1 h2
      exact Or.inl h1.symm
  rcases key with hk | hk <;> subst hk <;>
    exact ⟨rfl, rfl, rfl, rfl, rfl, rfl, rfl⟩

/-- Witness for C5: requesting the cached attestation report of a fresh
state fails and returns the state unchanged. -/
theorem failing_call_leaves_state_unchanged_witness :
    runOp (fun _ => true) stW .getIasReport = (stW, .error .attestation) ∧
    (EnclaveState.cached_report stW = EnclaveState.cached_report stW ∧
      EnclaveState.client_sessions stW = EnclaveState.client_sessions stW ∧
      EnclaveState.peer_sessions stW = EnclaveState.peer_sessions stW ∧
      EnclaveState.keys stW = EnclaveState.keys stW ∧
      EnclaveState.measurement stW = EnclaveState.measurement stW ∧
      EnclaveState.session_ctr stW = EnclaveState.session_ctr stW ∧
      EnclaveState.nonce_ctr stW = EnclaveState.nonce_ctr stW) :=
  ⟨rfl,
    failing_call_leaves_state_unchanged (fun _ => true) stW .getIasReport stW
      .attestation rfl⟩

/-- C6: along the successful attestation round-trip — `new_ereport`,
then `verify_quote` with a quote embedding the issued report, then
`verify_ias_report` with a report matching that quote and IAS nonce —
`get_ias_report` returns exactly the report that was verified; and at
either verification step, a mismatched quote or report fails with an
attestation error and leaves the previously cached verification report
unchanged. -/
theorem attestation_round_trip (st s1 s2 s3 : EnclaveState) (qe_info : Nat)
    (r : Report) (n ias : Nat)
    (h1 : new_ereport st qe_info = (s1, .ok (r, n)))
    (h2 : verify_quote s1 ⟨r⟩ ⟨true⟩ = (s2, .ok ias))
    (h3 : verify_ias_report s2 ⟨⟨r⟩, ias, true⟩ = (s3, .ok ())) :
    get_ias_report s3 = .ok ⟨⟨r⟩, ias, true⟩ ∧
    (∀ q qe s' e, verify_quote s1 q qe = (s', .error e) →
      EnclaveState.cached_report s' = EnclaveState.cached_report s1) ∧
    (∀ q qe, Quote.report q ≠ r →
      ∃ s', verify_quote s1 q qe = (s', .error .attestation)) ∧
    (∀ vr s' e, verify_ias_report s2 vr = (s', .error e) →
      EnclaveState.cached_report s' = EnclaveState.cached_report s2) ∧
    (∀ vr, (VerificationReport.quote vr ≠ (⟨r⟩ : Quote) ∨
        VerificationReport.ias_nonce vr ≠ ias ∨
        VerificationReport.trusted_sig vr = false) →
      ∃ s', verify_ias_report s2 vr = (s', .error .attestation)) := by
  unfold new_ereport at h1
  injection h1 with h1a h1b
  injection h1b with h1b
  injection h1b with hr hn
  subst h1a hr hn
  simp only [verify_quote] at h2
  rw [if_pos (by simp)] at h2
  injection h2 with h2a h2b
  injection h2b with h2b
  subst h2a h2b
  simp only [verify_ias_report] at h3
  rw [if_pos (by simp)] at h3
  injection h3 with h3a h3b
  subst h3a
  refine ⟨rfl, ?_, ?_, ?_, ?_⟩
  · intro q qe s' e hv
    rcases verify_quote_error_state _ _ _ _ _ hv with hk | hk <;> subst hk <;> rfl
  · intro q qe hq
    refine ⟨{ st with pending := none, nonce_ctr := EnclaveState.nonce_ctr st + 1 }, ?_⟩
    simp only [verify_quote]
    rw [if_neg (fun hc => hq hc.1)]
  · intro vr s' e hv
    rcases verify_ias_report_error_state _ _ _ _ hv with hk | hk <;> subst hk <;> rfl
  · intro vr hvr
    refine ⟨{ st with
      pending := none
      nonce_ctr := EnclaveState.nonce_ctr st + 1 + 1 }, ?_⟩
    simp only [verify_ias_report]
    rw [if_neg ?_]
    intro hc
    rcases hvr with hq | hn | ht
    · exact hq hc.2.1
    · exact hn hc.2.2
    · rcases hc with ⟨hc1, -, -⟩
      rw [ht] at hc1
      cases hc1

/-- Witness for C6: one concrete attestation round-trip from `stW`. -/
theorem attestation_round_trip_witness :
    new_ereport stW 3 = (attestS1, .ok (⟨3, 10⟩, 10)) ∧
    verify_quote attestS1 ⟨⟨3, 10⟩⟩ ⟨true⟩ = (attestS2, .ok 11) ∧
    verify_ias_report attestS2 ⟨⟨⟨3, 10⟩⟩, 11, true⟩ = (attestS3, .ok ()) ∧
    get_ias_report attestS3 = .ok ⟨⟨⟨3, 10⟩⟩, 11, true⟩ :=
  ⟨rfl, rfl, rfl,
    (attestation_round_trip stW attestS1 attestS2 attestS3 3 ⟨3, 10⟩ 10 11
      rfl rfl rfl).1⟩

/-- C7: every state holds at most one pending attestation nonce; a
second `new_ereport` always succeeds, silently replacing any pending
handshake with the new nonce (last-writer-wins); afterwards only quotes
and reports matching the newest nonce can be verified: a successful
`verify_quote` forces the quote to embed the newly issued report and
nonce, a verification report offered right after the replacement is
never accepted, and once the newest quote has been verified a
verification report is only accepted if it embeds exactly that quote
(hence the newest report and nonce) and the issued IAS nonce. -/
theorem new_ereport_last_writer_wins (st : EnclaveState) (qe_info : Nat) :
    (∀ s : EnclaveState, (pendingNonceList s).length ≤ 1) ∧
    (new_ereport st qe_info).2
      = .ok (⟨qe_info, EnclaveState.nonce_ctr st⟩, EnclaveState.nonce_ctr st) ∧
    EnclaveState.pending (new_ereport st qe_info).1
      = some (.reportIssued ⟨qe_info, EnclaveState.nonce_ctr st⟩
          (EnclaveState.nonce_ctr st)) ∧
    (∀ q qe s' x, verify_quote (new_ereport st qe_info).1 q qe = (s', .ok x) →
      Quote.report q = ⟨qe_info, EnclaveState.nonce_ctr st⟩) ∧
    (∀ vr, verify_ias_report (new_ereport st qe_info).1 vr
      = ((new_ereport st qe_info).1, .error .attestation)) ∧
    (∀ q qe s' x, verify_quote (new_ereport st qe_info).1 q qe = (s', .ok x) →
      ∀ vr s2 u, verify_ias_report s' vr = (s2, .ok u) →
        VerificationReport.quote vr = q ∧
        Quote.report (VerificationReport.quote vr)
          = ⟨qe_info, EnclaveState.nonce_ctr st⟩ ∧
        VerificationReport.ias_nonce vr = x) := by
  refine ⟨?_, rfl, rfl, ?_, ?_, ?_⟩
  · intro s
    unfold pendingNonceList
    cases hp : EnclaveState.pending s with
    | none => simp
    | some p => cases p <;> simp
  · intro q qe s' x hv
    simp only [new_ereport, verify_quote] at hv
    by_cases hc : Quote.report q = (⟨qe_info, EnclaveState.nonce_ctr st⟩ : Report) ∧
        QeReport.consistent qe = true
    · exact hc.1
    · rw [if_neg hc] at hv
      injection hv with hv1 hv2
      cases hv2
  · intro vr
    rfl
  · intro q qe s' x hv vr s2 u hir
    simp only [new_ereport, verify_quote] at hv
    split at hv
    next hc =>
      injection hv with hv1 hv2
      injection hv2 with hv2
      subst hv1 hv2
      simp only [verify_ias_report] at hir
      split at hir
      next hcond =>
        refine ⟨hcond.2.1, ?_, hcond.2.2⟩
        rw [hcond.2.1]
        exact hc.1
      next hcond =>
        injection hir with hir1 hir2
        cases hir2
    next hc =>
      injection hv with hv1 hv2
      cases hv2

/-- Witness for C7: after `new_ereport` on `stW` the pending handshake
holds exactly the newly issued nonce, and a verification report offered
before the new quote is verified is rejected with an attestation
error. -/
theorem new_ereport_last_writer_wins_witness :
    EnclaveState.pending (new_ereport stW 3).1 = some (.reportIssued ⟨3, 10⟩ 10) ∧
    verify_ias_report (new_ereport stW 3).1 ⟨⟨⟨9, 9⟩⟩, 9, true⟩
      = ((new_ereport stW 3).1, .error .attestation) ∧
    (verify_quote (new_ereport stW 3).1 ⟨⟨3, 10⟩⟩ ⟨true⟩ = (attestS2, .ok 11) ∧
      verify_ias_report attestS2 ⟨⟨⟨3, 10⟩⟩, 11, true⟩ = (attestS3, .ok ()) ∧
      (VerificationReport.quote ⟨⟨⟨3, 10⟩⟩, 11, true⟩ = ⟨⟨3, 10⟩⟩ ∧
        Quote.report (VerificationReport.quote ⟨⟨⟨3, 10⟩⟩, 11, true⟩) = ⟨3, 10⟩ ∧
        VerificationReport.ias_nonce ⟨⟨⟨3, 10⟩⟩, 11, true⟩ = 11)) :=
  ⟨(new_ereport_last_writer_wins stW 3).2.2.1,
    (new_ereport_last_writer_wins stW 3).2.2.2.2.1 ⟨⟨⟨9, 9⟩⟩, 9, true⟩,
    rfl, rfl,
    (new_ereport_last_writer_wins stW 3).2.2.2.2.2 ⟨⟨3, 10⟩⟩ ⟨true⟩ attestS2 11
      rfl ⟨⟨⟨3, 10⟩⟩, 11, true⟩ attestS3 () rfl⟩

/-- Updating a present session's counter makes the new value the one
found by a subsequent lookup. -/
theorem lookupSession_setSession (tbl : List (Nat × Nat)) (sid v c : Nat)
    (h : lookupSession tbl sid = some c) :
    lookupSession (setSession tbl sid v) sid = some v := by
  induction tbl with
  | nil => simp [lookupSession] at h
  | cons p rest ih =>
    rcases p with ⟨a, b⟩
    by_cases hp : a = sid
    · subst hp
      simp [lookupSession, setSession]
    · have h' : lookupSession rest sid = some c := by
        simpa [lookupSession, List.find?_cons, hp] using h
      have hres := ih h'
      simpa [lookupSession, setSession, List.find?_cons, hp] using hres

/-- C8: on an established client session carrying the expected sequence
number, `client_discard_message` succeeds returning no payload (its
result carries no data), and it advances the session's counter, so that
a subsequent legitimate message with the next sequence number decrypts
and is processed successfully. -/
theorem client_discard_message_advances (st : EnclaveState)
    (msg : EnclaveMessage) (c : Nat)
    (hsess : lookupSession (EnclaveState.client_sessions st)
      (EnclaveMessage.channel_id msg) = some c)
    (hseq : EnclaveMessage.seq msg = c) :
    ∃ st1, client_discard_message st msg = (st1, .ok ()) ∧
      lookupSession (EnclaveState.client_sessions st1)
        (EnclaveMessage.channel_id msg) = some (c + 1) ∧
      ∀ tx aad2, ∃ st2,
        client_tx_propose st1
          ⟨EnclaveMessage.channel_id msg, c + 1, [tx], aad2⟩
          = (st2, .ok (makeTxContext tx)) := by
  have hdec : decryptClientMsg st msg
      = (withClientSessions st (setSession (EnclaveState.client_sessions st)
            (EnclaveMessage.channel_id msg) (c + 1)),
          .ok (EnclaveMessage.txs msg)) := by
    unfold decryptClientMsg withClientSessions
    simp only [hsess]
    rw [if_pos hseq]
  refine ⟨withClientSessions st (setSession (EnclaveState.client_sessions st)
    (EnclaveMessage.channel_id msg) (c + 1)), ?_, ?_, ?_⟩
  · unfold client_discard_message
    rw [hdec]
  · exact lookupSession_setSession _ _ _ _ hsess
  · intro tx aad2
    refine ⟨withClientSessions st
      (setSession (setSession (EnclaveState.client_sessions st)
        (EnclaveMessage.channel_id msg) (c + 1))
        (EnclaveMessage.channel_id msg) (c + 1 + 1)), ?_⟩
    unfold client_tx_propose
    have hdec2 : decryptClientMsg
        (withClientSessions st (setSession (EnclaveState.client_sessions st)
          (EnclaveMessage.channel_id msg) (c + 1)))
        ⟨EnclaveMessage.channel_id msg, c + 1, [tx], aad2⟩
        = (withClientSessions st
            (setSession (setSession (EnclaveState.client_sessions st)
              (EnclaveMessage.channel_id msg) (c + 1))
              (EnclaveMessage.channel_id msg) (c + 1 + 1)),
          .ok [tx]) := by
      unfold decryptClientMsg withClientSessions
      simp only [lookupSession_setSession _ _ _ _ hsess]
      simp
    rw [hdec2]

/-- Witness for C8: discarding a message on client session 1 of `stW`
advances its counter from 4 to 5. -/
theorem client_discard_message_advances_witness :
    lookupSession (EnclaveState.client_sessions stW) 1 = some 4 ∧
    ∃ st1, client_discard_message stW ⟨1, 4, [], []⟩ = (st1, .ok ()) ∧
      lookupSession (EnclaveState.client_sessions st1) 1 = some 5 ∧
      ∀ tx aad2, ∃ st2,
        client_tx_propose st1 ⟨1, 5, [tx], aad2⟩
          = (st2, .ok (makeTxContext tx)) :=
  ⟨rfl, client_discard_message_advances stW ⟨1, 4, [], []⟩ 4 rfl rfl⟩

/-- C9: a successful `client_tx_propose` call implies the client message
carried exactly one transaction (and returns exactly one `TxContext`); a
decryptable client message carrying more than one transaction is
rejected as a malformed payload; `peer_tx_propose` returns one
`TxContext` per transaction in the peer message, however many there
are. -/
theorem client_single_tx_peer_multi_tx (st : EnclaveState) (msg : EnclaveMessage) :
    (∀ st1 ctx, client_tx_propose st msg = (st1, .ok ctx) →
      (EnclaveMessage.txs msg).length = 1) ∧
    (∀ c, lookupSession (EnclaveState.client_sessions st)
        (EnclaveMessage.channel_id msg) = some c →
      EnclaveMessage.seq msg = c → 1 < (EnclaveMessage.txs msg).length →
      (client_tx_propose st msg).2 = .error .serialization) ∧
    (∀ st1 ctxs, peer_tx_propose st msg = (st1, .ok ctxs) →
      ctxs.length = (EnclaveMessage.txs msg).length) := by
  refine ⟨?_, ?_, ?_⟩
  · intro st1 ctx hcall
    unfold client_tx_propose at hcall
    cases hd : decryptClientMsg st msg with
    | mk st' r =>
      rw [hd] at hcall
      cases r with
      | error e =>
        have hsnd : (Except.error e : Except Error TxContext) = .ok ctx :=
          congrArg Prod.snd hcall
        cases hsnd
      | ok l =>
        have hpay : l = EnclaveMessage.txs msg :=
          decryptClientMsg_ok_payload _ _ _ _ hd
        subst hpay
        cases hl : EnclaveMessage.txs msg with
        | nil =>
          rw [hl] at hcall
          have hsnd : (Except.error Error.serialization : Except Error TxContext)
              = .ok ctx := congrArg Prod.snd hcall
          cases hsnd
        | cons t1 rest =>
          cases rest with
          | nil => rfl
          | cons t2 rest2 =>
            rw [hl] at hcall
            have hsnd : (Except.error Error.serialization : Except Error TxContext)
                = .ok ctx := congrArg Prod.snd hcall
            cases hsnd
  · intro c hsess hseq hlen
    have hdec : decryptClientMsg st msg
        = (withClientSessions st (setSession (EnclaveState.client_sessions st)
              (EnclaveMessage.channel_id msg) (c + 1)),
            .ok (EnclaveMessage.txs msg)) := by
      unfold decryptClientMsg withClientSessions
      simp only [hsess]
      rw [if_pos hseq]
    unfold client_tx_propose
    rw [hdec]
    cases hl : EnclaveMessage.txs msg with
    | nil => rfl
    | cons t1 rest =>
      cases rest with
      | nil =>
        rw [hl] at hlen
        simp at hlen
      | cons t2 rest2 => rfl
  · intro st1 ctxs hcall
    unfold peer_tx_propose at hcall
    cases hd : decryptPeerMsg st msg with
    | mk st' r =>
      rw [hd] at hcall
      cases r with
      | error e =>
        have hsnd : (Except.error e : Except Error (List TxContext)) = .ok ctxs :=
          congrArg Prod.snd hcall
        cases hsnd
      | ok l =>
        have hpay : l = EnclaveMessage.txs msg :=
          decryptPeerMsg_ok_payload _ _ _ _ hd
        subst hpay
        have hsnd : (Except.ok ((EnclaveMessage.txs msg).map makeTxContext) :
            Except Error (List TxContext)) = .ok ctxs := congrArg Prod.snd hcall
        injection hsnd with hsnd
        subst hsnd
        simp

/-- Witness for C9: the successful single-transaction client proposal of
`msgCW` implies its payload length is one. -/
theorem client_single_tx_peer_multi_tx_witness :
    client_tx_propose stW msgCW = (stW1, .ok (makeTxContext txA)) ∧
    (EnclaveMessage.txs msgCW).length = 1 :=
  ⟨rfl, (client_single_tx_peer_multi_tx stW msgCW).1 stW1 (makeTxContext txA) rfl⟩

/-- C10: `enclave_init` succeeds with no sealed key (fresh key
generation) and with a sealed key of this enclave's own measurement
(unsealing), and every successful call — on either path — hands back a
sealed blob which this enclave unseals to its now-active block-signing
key; success never leaves the host without a sealed blob. -/
theorem enclave_init_always_returns_sealed_blob (st : EnclaveState)
    (self_peer_id self_client_id : Nat)
    (sealed_key : Option SealedBlockSigningKey) :
    (∃ st1 blob, enclave_init st self_peer_id self_client_id none
      = (st1, .ok blob)) ∧
    (∀ blob, SealedBlockSigningKey.sealed_measurement blob
        = EnclaveState.measurement st →
      ∃ st1 blob2, enclave_init st self_peer_id self_client_id (some blob)
        = (st1, .ok blob2)) ∧
    (∀ st1 blob2,
      enclave_init st self_peer_id self_client_id sealed_key = (st1, .ok blob2) →
      unsealKey (EnclaveState.measurement st1) blob2
        = .ok (EnclaveKeys.signing_key (EnclaveState.keys st1))) := by
  refine ⟨⟨_, _, rfl⟩, ?_, ?_⟩
  · intro blob hm
    have hu : unsealKey (EnclaveState.measurement st) blob
        = .ok (SealedBlockSigningKey.sealed_key blob) := by
      unfold unsealKey
      rw [if_pos hm]
    refine ⟨withKeys st ⟨SealedBlockSigningKey.sealed_key blob,
        EnclaveKeys.channel_key (EnclaveState.keys st)⟩,
      sealKey (EnclaveState.measurement st)
        (SealedBlockSigningKey.sealed_key blob), ?_⟩
    simp only [enclave_init, hu, withKeys]
  · intro st1 blob2 h
    cases sealed_key with
    | none =>
      simp only [enclave_init] at h
      injection h with h1 h2
      injection h2 with h2
      subst h1 h2
      simp [unsealKey, sealKey]
    | some blob =>
      simp only [enclave_init] at h
      cases hu : unsealKey (EnclaveState.measurement st) blob with
      | ok k =>
        simp only [hu] at h
        injection h with h1 h2
        injection h2 with h2
        subst h1 h2
        simp [unsealKey, sealKey]
      | error e =>
        simp only [hu] at h
        injection h with h1 h2
        cases h2

/-- Witness for C10: initializing `stW` by unsealing a blob sealed under
its own measurement succeeds. -/
theorem enclave_init_always_returns_sealed_blob_witness :
    SealedBlockSigningKey.sealed_measurement (⟨9, 3⟩ : SealedBlockSigningKey)
      = EnclaveState.measurement stW ∧
    ∃ st1 blob2, enclave_init stW 0 0 (some ⟨9, 3⟩) = (st1, .ok blob2) :=
  ⟨rfl,
    (enclave_init_always_returns_sealed_blob stW 0 0 (some ⟨9, 3⟩)).2.1 ⟨9, 3⟩ rfl⟩

end ConsensusEnclaveApi
